import Mathlib

/-!
Verification of the shopee-extractor repository's core behaviors.

The definitions below are a shallow embedding of the TypeScript source:
  * the batch coordinator loop of `src/app/api/scrape-lazada/route.ts` (`POST`),
  * the pagination driver `scrapeShopPageWithAutoPagination` and the page
    harvester `scrapeShopPage` of the scraper module,
  * the quantity normalizer `getMonthlySoldInfo`, `getPriceNumeric` and the
    export row builders of `src/lib/exportFiles.ts` and of the route module,
  * `extractProductsFromJson` / `processMultipleJsons` of the JSON path.

JavaScript numbers are modelled as exact rationals (the quantities involved
are small decimal literals for which IEEE doubles behave exactly), strings as
Lean `String` / `List Char`, fallible operations as `Except`/`Option`, and the
headless-browser environment as explicit function parameters (selector match
counts, per-page harvest outcomes, observed listing counts per scroll
iteration).
-/

namespace ShopeeExtractor

/-! ## Generic string helpers shared by several embedded functions -/

/-- Whitespace test modelling the JavaScript `\s` character class for the
characters that occur in this domain (ASCII whitespace and NBSP). -/
def isWs (c : Char) : Bool :=
  c = ' ' || c = '\t' || c = '\n' || c = '\r' || c = '\x0b' || c = '\x0c' || c = ' '

/-- `trim` on character lists (leading and trailing whitespace removed),
modelling JavaScript `String.prototype.trim`. -/
def jsTrim (l : List Char) : List Char :=
  ((l.dropWhile isWs).reverse.dropWhile isWs).reverse

/-- Numeric value of a list of decimal digit characters (JS `parseFloat` /
`parseInt` digit accumulation). -/
def natOfDigits (l : List Char) : Nat :=
  l.foldl (fun a c => a * 10 + (c.toNat - 48)) 0

/-- Decimal digit characters of a natural number, most significant first. -/
def natDigitsAux : Nat → Nat → List Char → List Char
  | 0, _, acc => acc
  | fuel + 1, n, acc =>
    if n < 10 then Char.ofNat (48 + n) :: acc
    else natDigitsAux fuel (n / 10) (Char.ofNat (48 + n % 10) :: acc)

def natToDigits (n : Nat) : List Char :=
  natDigitsAux (n + 1) n []

/-- First-match characterization of `List.find?`: a successful probe splits
the candidate list at the first element satisfying the predicate. -/
theorem find?_first {α : Type} {p : α → Bool} :
    ∀ (l : List α) (a : α), l.find? p = some a →
      ∃ pre post, l = pre ++ a :: post ∧ (∀ x ∈ pre, p x = false) ∧ p a = true := by
  intro l
  induction l with
  | nil => intro a h; simp [List.find?] at h
  | cons b t ih =>
    intro a h
    by_cases hb : p b
    · refine ⟨[], t, ?_, ?_, ?_⟩
      · simp [List.find?, hb] at h
        simp [h]
      · intro x hx; simp at hx
      · simp [List.find?, hb] at h
        simpa [← h] using hb
    · simp [List.find?, hb] at h
      obtain ⟨pre, post, h1, h2, h3⟩ := ih a h
      exact ⟨b :: pre, post, by simp [h1], by simpa [hb] using h2, h3⟩

/-! ## Batch coordinator (`POST` in `src/app/api/scrape-lazada/route.ts`)

The route iterates over the incoming URLs, harvesting each inside a
`try`/`catch`: a successful harvest's products are appended to the running
aggregate, a failing URL's error is recorded against that URL and the loop
continues with the next URL.  The per-URL harvest (auto-pagination or single
page) is abstracted as a function from URL to an `Except` outcome. -/

def runBatch {P : Type} (harvest : String → Except String (List P))
    (urls : List String) : List P × List (String × String) :=
  urls.foldl
    (fun acc url =>
      match harvest url with
      | .ok ps => (acc.1 ++ ps, acc.2)
      | .error e => (acc.1, acc.2 ++ [(url, e)]))
    ([], [])

/-- Records contributed by one URL: its harvest's records, or none on failure. -/
def urlRecords {P : Type} (harvest : String → Except String (List P)) (url : String) :
    List P :=
  match harvest url with
  | .ok ps => ps
  | .error _ => []

/-- Error entry contributed by one URL: present exactly when its harvest fails. -/
def urlError {P : Type} (harvest : String → Except String (List P)) (url : String) :
    Option (String × String) :=
  match harvest url with
  | .ok _ => none
  | .error e => some (url, e)

theorem runBatch_fold {P : Type} (harvest : String → Except String (List P)) :
    ∀ (urls : List String) (acc : List P) (errs : List (String × String)),
      urls.foldl
        (fun acc url =>
          match harvest url with
          | .ok ps => (acc.1 ++ ps, acc.2)
          | .error e => (acc.1, acc.2 ++ [(url, e)]))
        (acc, errs) =
      (acc ++ (urls.map (urlRecords harvest)).flatten,
       errs ++ urls.filterMap (urlError harvest)) := by
  intro urls
  induction urls with
  | nil => intro acc errs; simp
  | cons u t ih =>
    intro acc errs
    cases hu : harvest u with
    | ok ps => simp [List.foldl, hu, ih, urlRecords, urlError]
    | error e => simp [List.foldl, hu, ih, urlRecords, urlError]

/-- Claim C1: the batch never aborts because one URL fails — the aggregate
record list is the in-order concatenation of the successful URLs' records,
each failing URL contributes zero records and exactly one per-URL error entry
keyed by that URL, and in particular for three URLs with the second failing
the result is URL 1's records followed by URL 3's with a single error entry
keyed by URL 2. -/
theorem batch_isolates_failures {P : Type}
    (harvest : String → Except String (List P)) (urls : List String) :
    (runBatch harvest urls).1 = (urls.map (urlRecords harvest)).flatten ∧
    (runBatch harvest urls).2 = urls.filterMap (urlError harvest) ∧
    (∀ (u1 u2 u3 : String) (r1 r3 : List P) (e : String),
      harvest u1 = .ok r1 → harvest u2 = .error e → harvest u3 = .ok r3 →
      runBatch harvest [u1, u2, u3] = (r1 ++ r3, [(u2, e)])) := by
  refine ⟨?_, ?_, ?_⟩
  · simp [runBatch, runBatch_fold]
  · simp [runBatch, runBatch_fold]
  · intro u1 u2 u3 r1 r3 e h1 h2 h3
    simp [runBatch, runBatch_fold, urlRecords, urlError, h1, h2, h3]

/-- Concrete witness for C1: URLs "a", "c" succeed with one record each,
URL "b" fails; the batch yields both records and one error entry for "b". -/
theorem batch_isolates_failures_witness :
    runBatch
      (fun u => if u = "b" then Except.error "nav" else Except.ok [u])
      ["a", "b", "c"] = (["a", "c"], [("b", "nav")]) := by
  have h :=
    (batch_isolates_failures
      (fun u => if u = "b" then Except.error "nav" else Except.ok [u])
      ["a", "b", "c"]).2.2 "a" "b" "c" ["a"] ["c"] "nav"
      (by rfl) (by rfl) (by rfl)
  simpa using h

/-! ## Pagination driver (`scrapeShopPageWithAutoPagination`)

The driver loops `while (currentPage <= maxPages)` (the safety ceiling,
50 in the source), harvesting each page: zero records stop the loop
(empty page), a raised error stops it without propagating (the products
gathered so far are returned), otherwise the records are appended and the
page number incremented.  The per-page harvest is abstracted as a function
from page number to an `Except` outcome; the `while` loop is realized by
structural recursion on the fuel `maxPages + 1 - currentPage`, which is
positive exactly when the loop condition `currentPage ≤ maxPages` holds. -/

inductive TermReason where
  | EMPTY_PAGE
  | ERROR
  | PAGE_LIMIT
deriving DecidableEq, Repr

structure PaginationResult (E R : Type) where
  records : List R
  reason : TermReason
  pagesVisited : Nat
deriving DecidableEq, Repr

def autoPaginateAux {E R : Type} (harvest : Nat → Except E (List R)) :
    Nat → Nat → List R → Nat → PaginationResult E R
  | 0, _, acc, visited => ⟨acc, .PAGE_LIMIT, visited⟩
  | fuel + 1, page, acc, visited =>
    match harvest page with
    | .error _ => ⟨acc, .ERROR, visited + 1⟩
    | .ok rs =>
      if rs.isEmpty then ⟨acc, .EMPTY_PAGE, visited + 1⟩
      else autoPaginateAux harvest fuel (page + 1) (acc ++ rs) (visited + 1)

/-- The safety ceiling hard-coded in the source (`const maxPages = 50`). -/
def defaultMaxPages : Nat := 50

def autoPaginate {E R : Type} (harvest : Nat → Except E (List R))
    (maxPages startPage : Nat) : PaginationResult E R :=
  autoPaginateAux harvest (maxPages + 1 - startPage) startPage [] 0

theorem autoPaginateAux_zero {E R : Type} (harvest : Nat → Except E (List R))
    (page : Nat) (acc : List R) (v : Nat) :
    autoPaginateAux harvest 0 page acc v = ⟨acc, .PAGE_LIMIT, v⟩ := rfl

theorem autoPaginateAux_error {E R : Type} {harvest : Nat → Except E (List R)}
    {page : Nat} {e : E} (h : harvest page = .error e)
    (fuel : Nat) (acc : List R) (v : Nat) :
    autoPaginateAux harvest (fuel + 1) page acc v = ⟨acc, .ERROR, v + 1⟩ := by
  simp [autoPaginateAux, h]

theorem autoPaginateAux_empty {E R : Type} {harvest : Nat → Except E (List R)}
    {page : Nat} (h : harvest page = .ok [])
    (fuel : Nat) (acc : List R) (v : Nat) :
    autoPaginateAux harvest (fuel + 1) page acc v = ⟨acc, .EMPTY_PAGE, v + 1⟩ := by
  simp [autoPaginateAux, h]

theorem autoPaginateAux_step {E R : Type} {harvest : Nat → Except E (List R)}
    {page : Nat} {rs : List R} (h : harvest page = .ok rs) (hne : rs ≠ [])
    (fuel : Nat) (acc : List R) (v : Nat) :
    autoPaginateAux harvest (fuel + 1) page acc v =
      autoPaginateAux harvest fuel (page + 1) (acc ++ rs) (v + 1) := by
  simp [autoPaginateAux, h, hne]

theorem autoPaginateAux_visited_le {E R : Type} (harvest : Nat → Except E (List R)) :
    ∀ (fuel page : Nat) (acc : List R) (v : Nat),
      (autoPaginateAux harvest fuel page acc v).pagesVisited ≤ v + fuel := by
  intro fuel
  induction fuel with
  | zero => intro page acc v; simp [autoPaginateAux]
  | succ n ih =>
    intro page acc v
    cases h : harvest page with
    | error e =>
      rw [autoPaginateAux_error h]
      show v + 1 ≤ v + (n + 1)
      omega
    | ok rs =>
      by_cases hne : rs.isEmpty
      · have hrs : rs = [] := by simpa [List.isEmpty_iff] using hne
        rw [hrs] at h
        rw [autoPaginateAux_empty h]
        show v + 1 ≤ v + (n + 1)
        omega
      · rw [autoPaginateAux_step h (by simpa [List.isEmpty_iff] using hne)]
        calc (autoPaginateAux harvest n (page + 1) (acc ++ rs) (v + 1)).pagesVisited
            ≤ (v + 1) + n := ih (page + 1) (acc ++ rs) (v + 1)
          _ = v + (n + 1) := by omega

/-- Claim C3: the page loop runs only while the current page number is at most
the safety ceiling, hence (starting from page 1 or later, as the driver's
default start is page 1) it visits at most `maxPages` pages; over an endless
sequence of non-empty pages with a ceiling of 2 and starting page 1 it returns
exactly the first two pages' records with termination reason `PAGE_LIMIT`. -/
theorem pagination_page_limit {E R : Type}
    (harvest : Nat → Except E (List R)) (f : Nat → List R)
    (maxPages startPage : Nat) (hstart : 1 ≤ startPage) :
    (autoPaginate harvest maxPages startPage).pagesVisited ≤ maxPages ∧
    ((∀ p, harvest p = .ok (f p)) → (∀ p, f p ≠ []) →
      autoPaginate harvest 2 1 = ⟨f 1 ++ f 2, .PAGE_LIMIT, 2⟩) := by
  constructor
  · have h := autoPaginateAux_visited_le harvest (maxPages + 1 - startPage) startPage [] 0
    simp only [autoPaginate]
    omega
  · intro hok hne
    have h1 : autoPaginate harvest 2 1 = autoPaginateAux harvest 2 1 [] 0 := rfl
    rw [h1, autoPaginateAux_step (hok 1) (hne 1),
      autoPaginateAux_step (hok 2) (hne 2), autoPaginateAux_zero]
    simp

/-- Concrete witness for C3: every page yields the single record `p`; with
ceiling 2 and start page 1 the driver returns pages 1 and 2 and stops at the
page limit, having visited 2 ≤ 2 pages. -/
theorem pagination_page_limit_witness :
    (autoPaginate (fun p => (Except.ok [p] : Except Unit (List Nat))) 2 1).pagesVisited ≤ 2 ∧
    autoPaginate (fun p => (Except.ok [p] : Except Unit (List Nat))) 2 1 =
      ⟨[1, 2], .PAGE_LIMIT, 2⟩ := by
  have h := pagination_page_limit (fun p => (Except.ok [p] : Except Unit (List Nat)))
    (fun p => [p]) 2 1 (by decide)
  exact ⟨h.1, by simpa using h.2 (fun p => rfl) (fun p => by simp)⟩

/-- Claim C4: a page harvesting zero records stops the driver with reason
`EMPTY_PAGE` keeping exactly the preceding pages' records (3-page simulation
with page 3 empty keeps pages 1–2), and a page raising an error stops the
driver without the error propagating — the driver still returns normally with
all previously harvested records and reason `ERROR`. -/
theorem pagination_empty_and_error {E R : Type}
    (h1 h2 : Nat → Except E (List R)) (r1 r2 s1 s2 : List R) (e : E)
    (ha : h1 1 = .ok r1) (hb : r1 ≠ []) (hc : h1 2 = .ok r2) (hd : r2 ≠ [])
    (he : h1 3 = .ok [])
    (ha2 : h2 1 = .ok s1) (hb2 : s1 ≠ []) (hc2 : h2 2 = .ok s2) (hd2 : s2 ≠ [])
    (he2 : h2 3 = .error e) :
    autoPaginate h1 defaultMaxPages 1 = ⟨r1 ++ r2, .EMPTY_PAGE, 3⟩ ∧
    autoPaginate h2 defaultMaxPages 1 = ⟨s1 ++ s2, .ERROR, 3⟩ := by
  constructor
  · have h0 : autoPaginate h1 defaultMaxPages 1 = autoPaginateAux h1 50 1 [] 0 := rfl
    rw [h0, show (50 : Nat) = 49 + 1 from rfl, autoPaginateAux_step ha hb,
      show (49 : Nat) = 48 + 1 from rfl, autoPaginateAux_step hc hd,
      show (48 : Nat) = 47 + 1 from rfl, autoPaginateAux_empty he]
    simp
  · have h0 : autoPaginate h2 defaultMaxPages 1 = autoPaginateAux h2 50 1 [] 0 := rfl
    rw [h0, show (50 : Nat) = 49 + 1 from rfl, autoPaginateAux_step ha2 hb2,
      show (49 : Nat) = 48 + 1 from rfl, autoPaginateAux_step hc2 hd2,
      show (48 : Nat) = 47 + 1 from rfl, autoPaginateAux_error he2]
    simp

/-- Concrete witness for C4: simulated 3-page sequences where page 3 is empty
(resp. raises an error); the driver keeps pages 1–2's records in both cases. -/
theorem pagination_empty_and_error_witness :
    autoPaginate
      (fun p => if p ≤ 2 then (Except.ok [p] : Except Unit (List Nat)) else Except.ok [])
      defaultMaxPages 1 = ⟨[1, 2], .EMPTY_PAGE, 3⟩ ∧
    autoPaginate
      (fun p => if p ≤ 2 then (Except.ok [p] : Except Unit (List Nat)) else Except.error ())
      defaultMaxPages 1 = ⟨[1, 2], .ERROR, 3⟩ := by
  have h := pagination_empty_and_error
    (fun p => if p ≤ 2 then (Except.ok [p] : Except Unit (List Nat)) else Except.ok [])
    (fun p => if p ≤ 2 then (Except.ok [p] : Except Unit (List Nat)) else Except.error ())
    [1] [2] [1] [2] ()
    (by rfl) (by simp) (by rfl) (by simp) (by rfl)
    (by rfl) (by simp) (by rfl) (by simp) (by rfl)
  simpa using h

/-! ## Scroll stabilization loop (inside `scrapeShopPage`)

The harvester scrolls repeatedly; after each scroll it re-counts the matched
listing elements (`previousCount` / `stableCount` / `scrollAttempts` in the
source).  The environment is abstracted as `counts : Nat → Nat`, the listing
count observed at each iteration.  The loop body: if the current count equals
the previous one the stable counter is incremented and, at 5, the loop breaks;
on any change the counter resets to zero; the loop also stops after 100
iterations (`maxScrollAttempts`). -/

def stableThreshold : Nat := 5

def maxScrollAttempts : Nat := 100

inductive ScrollExit where
  | stable
  | ceiling
deriving DecidableEq, Repr

/-- One source-faithful pass of the scroll loop.  `fuel` is
`maxScrollAttempts - scrollAttempts`, positive exactly when the loop guard
`scrollAttempts < maxScrollAttempts` holds; the returned number is the value
of `scrollAttempts` when the loop exits (the index of the breaking iteration
on a stable exit, the ceiling on a ceiling exit). -/
def scrollLoopAux (counts : Nat → Nat) : Nat → Nat → Nat → Nat → ScrollExit × Nat
  | 0, attempt, _, _ => (.ceiling, attempt)
  | fuel + 1, attempt, prevCount, stable =>
    let c := counts attempt
    if c = prevCount then
      if stableThreshold ≤ stable + 1 then (.stable, attempt)
      else scrollLoopAux counts fuel (attempt + 1) c (stable + 1)
    else scrollLoopAux counts fuel (attempt + 1) c 0

def scrollLoop (counts : Nat → Nat) : ScrollExit × Nat :=
  scrollLoopAux counts maxScrollAttempts 0 0 0

/-- The stable counter's value after processing iteration `t` (the source
initializes `previousCount = 0`, so the first observation is compared
against 0). -/
def stableTrace (counts : Nat → Nat) : Nat → Nat
  | 0 => if counts 0 = 0 then 1 else 0
  | t + 1 => if counts (t + 1) = counts t then stableTrace counts t + 1 else 0

/-- The previous count seen when iteration `t` starts. -/
def prevAt (counts : Nat → Nat) : Nat → Nat
  | 0 => 0
  | t + 1 => counts t

/-- The stable counter's value when iteration `t` starts. -/
def stableAt (counts : Nat → Nat) : Nat → Nat
  | 0 => 0
  | t + 1 => stableTrace counts t

/-- First iteration index in `[t, t + fuel)` at which the stable counter
reaches the threshold. -/
def firstStable (counts : Nat → Nat) : Nat → Nat → Option Nat
  | _, 0 => none
  | t, fuel + 1 =>
    if stableThreshold ≤ stableTrace counts t then some t
    else firstStable counts (t + 1) fuel

theorem stableTrace_eq (counts : Nat → Nat) (t : Nat) :
    stableTrace counts t =
      if counts t = prevAt counts t then stableAt counts t + 1 else 0 := by
  cases t with
  | zero => simp [stableTrace, prevAt, stableAt]
  | succ n => simp [stableTrace, prevAt, stableAt]

/-- Loop/trace correspondence: starting iteration `t` with the source-accurate
`previousCount` and `stableCount`, the loop exits at the first iteration whose
stable counter reaches the threshold, or at the fuel ceiling. -/
theorem scrollLoopAux_char (counts : Nat → Nat) :
    ∀ (fuel t : Nat),
      scrollLoopAux counts fuel t (prevAt counts t) (stableAt counts t) =
        (match firstStable counts t fuel with
         | some u => (ScrollExit.stable, u)
         | none => (ScrollExit.ceiling, t + fuel)) := by
  intro fuel
  induction fuel with
  | zero => intro t; simp [scrollLoopAux, firstStable]
  | succ n ih =>
    intro t
    by_cases hc : counts t = prevAt counts t
    · have hst : stableTrace counts t = stableAt counts t + 1 := by
        rw [stableTrace_eq, if_pos hc]
      by_cases hth : stableThreshold ≤ stableAt counts t + 1
      · have hfs : firstStable counts t (n + 1) = some t := by
          rw [firstStable, if_pos (by omega)]
        simp [scrollLoopAux, hc, hth, hfs]
      · have hfs : firstStable counts t (n + 1) = firstStable counts (t + 1) n := by
          rw [firstStable, if_neg (by omega)]
        have hrec : scrollLoopAux counts n (t + 1) (counts t) (stableAt counts t + 1) =
            scrollLoopAux counts n (t + 1) (prevAt counts (t + 1)) (stableAt counts (t + 1)) := by
          rw [show prevAt counts (t + 1) = counts t from rfl,
            show stableAt counts (t + 1) = stableTrace counts t from rfl, hst]
        rw [show scrollLoopAux counts (n + 1) t (prevAt counts t) (stableAt counts t) =
            scrollLoopAux counts n (t + 1) (counts t) (stableAt counts t + 1) by
          simp [scrollLoopAux, hc, hth]]
        rw [hrec, ih (t + 1), hfs]
        cases firstStable counts (t + 1) n
        · have hadd : t + 1 + n = t + (n + 1) := by omega
          simp [hadd]
        · rfl
    · have hst : stableTrace counts t = 0 := by
        rw [stableTrace_eq, if_neg hc]
      have hfs : firstStable counts t (n + 1) = firstStable counts (t + 1) n := by
        rw [firstStable, if_neg (by simp [stableThreshold]; omega)]
      have hrec : scrollLoopAux counts n (t + 1) (counts t) 0 =
          scrollLoopAux counts n (t + 1) (prevAt counts (t + 1)) (stableAt counts (t + 1)) := by
        rw [show prevAt counts (t + 1) = counts t from rfl,
          show stableAt counts (t + 1) = stableTrace counts t from rfl, hst]
      rw [show scrollLoopAux counts (n + 1) t (prevAt counts t) (stableAt counts t) =
          scrollLoopAux counts n (t + 1) (counts t) 0 by
        simp [scrollLoopAux, hc]]
      rw [hrec, ih (t + 1), hfs]
      cases firstStable counts (t + 1) n
      · have hadd : t + 1 + n = t + (n + 1) := by omega
        simp [hadd]
      · rfl

theorem firstStable_some (counts : Nat → Nat) :
    ∀ (fuel t u : Nat), firstStable counts t fuel = some u →
      t ≤ u ∧ u < t + fuel ∧ stableThreshold ≤ stableTrace counts u ∧
      ∀ s, t ≤ s → s < u → stableTrace counts s < stableThreshold := by
  intro fuel
  induction fuel with
  | zero => intro t u h; simp [firstStable] at h
  | succ n ih =>
    intro t u h
    rw [firstStable] at h
    by_cases hth : stableThreshold ≤ stableTrace counts t
    · rw [if_pos hth] at h
      obtain rfl : t = u := by simpa using h
      exact ⟨le_refl t, by omega, hth, fun s h1 h2 => by omega⟩
    · rw [if_neg hth] at h
      obtain ⟨h1, h2, h3, h4⟩ := ih (t + 1) u h
      refine ⟨by omega, by omega, h3, fun s hs1 hs2 => ?_⟩
      rcases Nat.eq_or_lt_of_le hs1 with hse | hsl
      · rw [← hse]; omega
      · exact h4 s hsl hs2

theorem firstStable_none (counts : Nat → Nat) :
    ∀ (fuel t : Nat), firstStable counts t fuel = none →
      ∀ s, t ≤ s → s < t + fuel → stableTrace counts s < stableThreshold := by
  intro fuel
  induction fuel with
  | zero => intro t _ s h1 h2; omega
  | succ n ih =>
    intro t h s h1 h2
    rw [firstStable] at h
    by_cases hth : stableThreshold ≤ stableTrace counts t
    · rw [if_pos hth] at h; exact absurd h (by simp)
    · rw [if_neg hth] at h
      rcases Nat.eq_or_lt_of_le h1 with hse | hsl
      · rw [← hse]; omega
      · exact ih (t + 1) h s hsl (by omega)

/-- Claim C5: the stable counter increments whenever the listing count is
unchanged since the previous iteration and resets to zero on any increase,
and the scroll loop always terminates — on a stable exit the counter has just
reached the threshold of 5 (and had not before), otherwise the iteration
ceiling of 100 is reached with the counter never having reached 5; in both
cases at most 100 iterations run. -/
theorem scroll_stabilization_terminates (counts : Nat → Nat) :
    (∀ t, (counts (t + 1) = counts t →
            stableTrace counts (t + 1) = stableTrace counts t + 1) ∧
          (counts t < counts (t + 1) → stableTrace counts (t + 1) = 0)) ∧
    (scrollLoop counts).2 ≤ maxScrollAttempts ∧
    ((scrollLoop counts).1 = .stable →
      stableThreshold ≤ stableTrace counts (scrollLoop counts).2 ∧
      ∀ s < (scrollLoop counts).2, stableTrace counts s < stableThreshold) ∧
    ((scrollLoop counts).1 = .ceiling →
      (scrollLoop counts).2 = maxScrollAttempts ∧
      ∀ s < maxScrollAttempts, stableTrace counts s < stableThreshold) := by
  have hchar : scrollLoop counts =
      (match firstStable counts 0 maxScrollAttempts with
       | some u => (ScrollExit.stable, u)
       | none => (ScrollExit.ceiling, maxScrollAttempts)) := by
    have h := scrollLoopAux_char counts maxScrollAttempts 0
    simpa [scrollLoop, prevAt, stableAt] using h
  refine ⟨?_, ?_, ?_, ?_⟩
  · intro t
    constructor
    · intro h; simp [stableTrace, h]
    · intro h; simp [stableTrace]; omega
  · rw [hchar]
    cases hfs : firstStable counts 0 maxScrollAttempts with
    | none => simp
    | some u =>
      have := firstStable_some counts maxScrollAttempts 0 u hfs
      simp; omega
  · intro hst
    rw [hchar] at hst ⊢
    cases hfs : firstStable counts 0 maxScrollAttempts with
    | none => rw [hfs] at hst; simp at hst
    | some u =>
      obtain ⟨_, _, h3, h4⟩ := firstStable_some counts maxScrollAttempts 0 u hfs
      exact ⟨h3, fun s hs => h4 s (Nat.zero_le s) hs⟩
  · intro hce
    rw [hchar] at hce ⊢
    cases hfs : firstStable counts 0 maxScrollAttempts with
    | some u => rw [hfs] at hce; simp at hce
    | none =>
      have h := firstStable_none counts maxScrollAttempts 0 hfs
      exact ⟨rfl, fun s hs => h s (Nat.zero_le s) (by omega)⟩

/-- Concrete witness for C5: with a constant observed count of 7 the counter
resets at iteration 0 (7 ≠ the initial previous count 0) and then increments
each iteration, so the loop breaks at iteration 5 with the counter at the
threshold. -/
theorem scroll_stabilization_terminates_witness :
    scrollLoop (fun _ => 7) = (.stable, 5) ∧
    stableThreshold ≤ stableTrace (fun _ => 7) (scrollLoop (fun _ => 7)).2 := by
  refine ⟨by decide, ?_⟩
  exact ((scroll_stabilization_terminates (fun _ => 7)).2.2.1 (by decide)).1

/-! ## Page harvester (`scrapeShopPage`): selector probing and field extraction

After navigation the harvester probes an ordered list of candidate listing
container selectors and keeps the first one with a non-zero match count; if
none matches it throws (`Could not find product elements on page`, the
spec's `NoListingsFoundError`).  The DOM is abstracted per listing item as:
the trimmed text of the first element matched by each selector (empty string
when nothing matches or the text is empty, exactly the fallback criterion of
the source's `getText`), and the trimmed texts of the item's `span`
descendants in document order (the source's `item.querySelectorAll('span')`
sold-count fallback scan). -/

/-- The candidate listing container selectors, in the source's order. -/
def productSelectors : List String :=
  [".Bm3ON", "[data-qa-locator=\"product-item\"]", ".gridItem", ".product-item",
    ".item-card"]

/-- The sold-count selector chain of the extraction script. -/
def soldCountSelectors : List String :=
  ["._1cEkb", "._1cEkb span", ".m2RZo", "[class*=\"sold\"]"]

/-- The name selector chain of the extraction script. -/
def nameSelectors : List String :=
  [".RfADt", "[class*=\"title\"]", "[class*=\"name\"]", "a[title]"]

/-- The price selector chain of the extraction script. -/
def priceSelectors : List String :=
  [".ooOxS", "._43F-s", "[class*=\"price\"]", ".price"]

/-- One listing node, abstracted by what the extraction script can observe. -/
structure ListingItem where
  /-- Trimmed `textContent` of the first element matching a selector inside
  this item; `""` when no element matches or its text is empty. -/
  selText : String → String
  /-- Trimmed texts of all `span` descendants, in document order. -/
  spans : List String

/-- The script's `getText(selectors)`: the first selector whose matched
element yields non-empty trimmed text, else the empty string. -/
def getTextList (item : ListingItem) (sels : List String) : String :=
  match sels.find? (fun s => item.selText s != "") with
  | some s => item.selText s
  | none => ""

/-- Test for the sold-count scan pattern `^[\d.,]+[kK]?\s+sold$` with the
case-insensitive flag. -/
def soldPattern (t : String) : Bool :=
  let cs := t.data
  let num := cs.takeWhile (fun c => c.isDigit || c = '.' || c = ',')
  let rest := cs.dropWhile (fun c => c.isDigit || c = '.' || c = ',')
  if num.isEmpty then false
  else
    let rest := match rest with
      | 'k' :: r => r
      | 'K' :: r => r
      | r => r
    let ws := rest.takeWhile isWs
    let tail := rest.dropWhile isWs
    !ws.isEmpty && tail.map Char.toLower == ['s', 'o', 'l', 'd']

/-- Try to match the regex `\s*sold\s*` (case-insensitive) at the head of the
character list, returning the remainder after the match. -/
def matchSoldAt (l : List Char) : Option (List Char) :=
  let r1 := l.dropWhile isWs
  if (r1.take 4).map Char.toLower = ['s', 'o', 'l', 'd'] then
    some ((r1.drop 4).dropWhile isWs)
  else none

/-- Global replacement of `\s*sold\s*` by the empty string, scanning left to
right as the JS `replace(/\s*sold\s*/gi, '')` does; the fuel (initially the
input length) dominates the number of scan steps, each of which consumes at
least one character. -/
def stripSoldAux : Nat → List Char → List Char
  | 0, l => l
  | _, [] => []
  | fuel + 1, c :: rest =>
    match matchSoldAt (c :: rest) with
    | some r => stripSoldAux fuel r
    | none => c :: stripSoldAux fuel rest

/-- `s.replace(/\s*sold\s*/gi, '').trim()` of the source. -/
def stripSold (s : String) : String :=
  ⟨jsTrim (stripSoldAux s.data.length s.data)⟩

/-- The sold-count extraction of `scrapeShopPage` (source lines 320–352):
selector chain first, then the span-scan fallback, then the removal of the
word "sold", and finally the `'0'` default. -/
def extractSoldCount (item : ListingItem) : String :=
  let fromSels := getTextList item soldCountSelectors
  let found :=
    if fromSels = "" then
      match item.spans.find? soldPattern with
      | some t => t
      | none => ""
    else fromSels
  let cleaned := if found ≠ "" then stripSold found else found
  if cleaned = "" then "0" else cleaned

/-- Characters removed by the price cleanup `replace(/[₱,\s]/g, '')`. -/
def isPriceNoise (c : Char) : Bool :=
  c = '₱' || c = ',' || isWs c

/-! ### JS `parseFloat`, modelled with exact decimal arithmetic

`parseFloat` skips leading whitespace, accepts an optional sign, a decimal
significand (`digits`, `digits.digits?`, or `.digits`) and an optional
well-formed exponent, ignoring any trailing garbage; it returns NaN (here
`none`) when no significand is present. -/

def parseExponent (l : List Char) : Int :=
  match l with
  | c :: r =>
    if c = 'e' || c = 'E' then
      let (sgn, r2) : Int × List Char :=
        match r with
        | '+' :: r2 => (1, r2)
        | '-' :: r2 => (-1, r2)
        | r2 => (1, r2)
      let ds := r2.takeWhile Char.isDigit
      if ds.isEmpty then 0 else sgn * (natOfDigits ds : Int)
    else 0
  | [] => 0

def parseFloatChars (l : List Char) : Option ℚ :=
  let l := l.dropWhile isWs
  let (sgn, l) : ℚ × List Char :=
    match l with
    | '+' :: r => (1, r)
    | '-' :: r => (-1, r)
    | r => (1, r)
  let ip := l.takeWhile Char.isDigit
  let rest := l.dropWhile Char.isDigit
  if ip.isEmpty then
    match rest with
    | '.' :: r =>
      let fp := r.takeWhile Char.isDigit
      let rest2 := r.dropWhile Char.isDigit
      if fp.isEmpty then none
      else some (sgn * ((natOfDigits fp : ℚ) / 10 ^ fp.length) *
        10 ^ parseExponent rest2)
    | _ => none
  else
    match rest with
    | '.' :: r =>
      let fp := r.takeWhile Char.isDigit
      let rest2 := r.dropWhile Char.isDigit
      some (sgn * ((natOfDigits ip : ℚ) + (natOfDigits fp : ℚ) / 10 ^ fp.length) *
        10 ^ parseExponent rest2)
    | _ => some (sgn * (natOfDigits ip : ℚ) * 10 ^ parseExponent rest)

/-- One extracted product record (the fields of the source's `ScrapedProduct`
that the verified claims inspect; presentation-only fields such as URLs,
rating and location are extracted analogously and omitted here). -/
structure ScrapedProduct where
  name : String
  price : ℚ
  soldCount : String
deriving DecidableEq, Repr

/-- The per-item extraction of the page-evaluation script: name from its
selector chain with the `Unknown Product {index+1}` fallback, price parsed
after noise removal with `|| 0`, and the sold-count logic above. -/
def extractProduct (item : ListingItem) (index : Nat) : ScrapedProduct :=
  let name0 := getTextList item nameSelectors
  let priceText := getTextList item priceSelectors
  { name := if name0 = "" then "Unknown Product " ++ toString (index + 1) else name0
    price := (parseFloatChars (priceText.data.filter (fun c => !isPriceNoise c))).getD 0
    soldCount := extractSoldCount item }

/-- The spec's error taxonomy for the harvester boundary. -/
inductive ScrapeError where
  | navigationError
  | noListingsFoundError
deriving DecidableEq, Repr

/-- The loaded page, abstracted by what the harvester observes: whether
navigation completed within its timeout, the match count of each selector
after the stabilization phase, and the listing items a selector matches. -/
structure PageEnv where
  navOk : Bool
  counts : String → Nat
  itemsOf : String → List ListingItem

/-- Probe of the candidate container selectors: the first with a non-zero
match count (the source's `workingSelector` loop). -/
def findWorkingSelector (counts : String → Nat) : Option String :=
  productSelectors.find? (fun sel => decide (0 < counts sel))

/-- `scrapeShopPage`: fail on navigation timeout, probe the container
selectors, fail when none matches, else extract one record per matched item
in document order. -/
def scrapeShopPage (env : PageEnv) : Except ScrapeError (List ScrapedProduct) :=
  if !env.navOk then .error .navigationError
  else
    match findWorkingSelector env.counts with
    | none => .error .noListingsFoundError
    | some sel =>
      .ok ((env.itemsOf sel).enum.map (fun p => extractProduct p.2 p.1))

/-- Claim C6: the harvester adopts the first candidate selector with a
non-zero match count as the page's active selector, and (once the page has
loaded) it fails with `NoListingsFoundError` exactly when every candidate
selector matches zero elements. -/
theorem selector_probe_first_match (env : PageEnv) (hnav : env.navOk = true) :
    (scrapeShopPage env = .error .noListingsFoundError ↔
      ∀ sel ∈ productSelectors, env.counts sel = 0) ∧
    (∀ sel, findWorkingSelector env.counts = some sel →
      0 < env.counts sel ∧
      (∃ pre post, productSelectors = pre ++ sel :: post ∧
        ∀ s ∈ pre, env.counts s = 0) ∧
      scrapeShopPage env =
        .ok ((env.itemsOf sel).enum.map (fun p => extractProduct p.2 p.1))) := by
  constructor
  · constructor
    · intro h sel hsel
      rw [scrapeShopPage, hnav] at h
      simp only [Bool.not_true, Bool.false_eq_true, if_false] at h
      cases hf : findWorkingSelector env.counts with
      | none =>
        have := List.find?_eq_none.mp hf sel hsel
        simpa using this
      | some s => rw [hf] at h; simp at h
    · intro h
      rw [scrapeShopPage, hnav]
      simp only [Bool.not_true, Bool.false_eq_true, if_false]
      have hf : findWorkingSelector env.counts = none := by
        rw [findWorkingSelector]
        apply List.find?_eq_none.mpr
        intro sel hsel
        simp [h sel hsel]
      rw [hf]
  · intro sel hf
    obtain ⟨pre, post, hsplit, hpre, hsel⟩ := find?_first productSelectors sel hf
    refine ⟨by simpa using hsel, ⟨pre, post, hsplit, ?_⟩, ?_⟩
    · intro s hs
      have := hpre s hs
      simpa using this
    · rw [scrapeShopPage, hnav]
      simp only [Bool.not_true, Bool.false_eq_true, if_false]
      rw [hf]

/-- Concrete witness for C6: only the third candidate selector matches; the
harvester adopts it, its match count is positive, the first two candidates
match nothing, and the page does not fail with `NoListingsFoundError`. -/
theorem selector_probe_first_match_witness :
    (0 < (fun s => if s = ".gridItem" then 3 else 0) ".gridItem" ∧
      (∃ pre post, productSelectors = pre ++ ".gridItem" :: post ∧
        ∀ s ∈ pre, (fun s => if s = ".gridItem" then 3 else 0) s = 0) ∧
      scrapeShopPage ⟨true, fun s => if s = ".gridItem" then 3 else 0, fun _ => []⟩ =
        .ok []) := by
  have h := (selector_probe_first_match
    ⟨true, fun s => if s = ".gridItem" then 3 else 0, fun _ => []⟩ rfl).2
    ".gridItem" (by decide)
  simpa using h

/-- A listing whose sold-count selector yields the as-scraped text
"1.3K sold". -/
def itemSelSold : ListingItem :=
  ⟨fun s => if s = "._1cEkb" then "1.3K sold" else "", []⟩

/-- Counterexample to claim C7 as stated: for a listing whose sold-count
element reads "1.3K sold", the stored field is "1.3K" — the extraction strips
the word "sold" (`replace(/\s*sold\s*/gi, '')`), so the field does not hold
the as-scraped text. -/
theorem sold_count_not_as_scraped :
    itemSelSold.selText "._1cEkb" = "1.3K sold" ∧
    extractSoldCount itemSelSold = "1.3K" ∧
    extractSoldCount itemSelSold ≠ "1.3K sold" := by
  refine ⟨rfl, by decide, by decide⟩

/-- Claim C7 (amended: the stored field is the matched text with the word
"sold" and surrounding whitespace removed, not the as-scraped text): when the
sold-count selector chain yields text, the field is that text stripped of
"sold"; when no selector matches, the extractor scans the listing's span
texts in document order and takes the first matching
`^[\d.,]+[kK]?\s+sold$` case-insensitively (again stripped of "sold"); the
field defaults to "0" when nothing matches or stripping leaves nothing. -/
theorem sold_count_extraction (item : ListingItem) :
    (getTextList item soldCountSelectors ≠ "" →
      extractSoldCount item =
        (if stripSold (getTextList item soldCountSelectors) = "" then "0"
         else stripSold (getTextList item soldCountSelectors))) ∧
    (getTextList item soldCountSelectors = "" →
      (∀ t, item.spans.find? soldPattern = some t →
        soldPattern t = true ∧
        (∃ pre post, item.spans = pre ++ t :: post ∧
          ∀ x ∈ pre, soldPattern x = false) ∧
        extractSoldCount item =
          (if stripSold t = "" then "0" else stripSold t)) ∧
      (item.spans.find? soldPattern = none → extractSoldCount item = "0")) := by
  constructor
  · intro hne
    rw [extractSoldCount]
    simp only [hne, if_neg hne, if_false]
    by_cases h0 : stripSold (getTextList item soldCountSelectors) = ""
    · simp [h0, hne]
    · simp [h0, hne]
  · intro heq
    constructor
    · intro t hft
      obtain ⟨pre, post, hsplit, hpre, hp⟩ := find?_first item.spans t hft
      have htne : t ≠ "" := by
        intro h0
        rw [h0] at hp
        simp [soldPattern] at hp
      refine ⟨hp, ⟨pre, post, hsplit, hpre⟩, ?_⟩
      rw [extractSoldCount]
      simp only [heq, if_pos rfl, hft]
      by_cases h0 : stripSold t = ""
      · simp [h0, htne]
      · simp [h0, htne]
    · intro hfn
      rw [extractSoldCount]
      simp [heq, hfn]

/-- Concrete witness for C7: a listing with no sold-count selector match and
span texts ["foo", "1.3K sold", "9 sold"]; the scan keeps the first matching
span, "foo" does not match the pattern, and the stored field is "1.3K". -/
theorem sold_count_extraction_witness :
    soldPattern "1.3K sold" = true ∧
    (∃ pre post,
      (["foo", "1.3K sold", "9 sold"] : List String) = pre ++ "1.3K sold" :: post ∧
      ∀ x ∈ pre, soldPattern x = false) ∧
    extractSoldCount ⟨fun _ => "", ["foo", "1.3K sold", "9 sold"]⟩ =
      (if stripSold "1.3K sold" = "" then "0" else stripSold "1.3K sold") := by
  have h := ((sold_count_extraction
    ⟨fun _ => "", ["foo", "1.3K sold", "9 sold"]⟩).2 (by rfl)).1
    "1.3K sold" (by decide)
  simpa using h

/-! ## Numeric normalizer (`getMonthlySoldInfo` in `src/lib/exportFiles.ts`)

The normalizer lowercases and trims the raw string, removes `+` and `,`,
deletes the "sold" word variants, removes remaining whitespace, then matches
`^(\d+(\.\d+)?)k$`; a k-match yields `numeric = base * 1000` with the +500
adjustment for bases in [1, 10]; otherwise the remainder goes through JS
`parseFloat`, an unparseable remainder yielding zeros with the original
string kept as the display.  JS doubles are modelled as exact decimals. -/

/-- The regex `\d` digit class on characters (ASCII 48–57), phrased on
`Char.toNat` for arithmetic-friendly reasoning. -/
def isDigitCh (c : Char) : Bool :=
  48 ≤ c.toNat && c.toNat ≤ 57

structure MonthlySoldInfo where
  numeric : ℚ
  adjusted : ℚ
  display : String
deriving DecidableEq, Repr

/-- Global replacement of
`sold\/month|sold\/mo|sold per month|sold monthly|sold` by the empty string,
scanning left to right with the alternatives tried in the source's order.
The input at this stage is already lowercased.  Fuel (initially the input
length) dominates the scan; every step consumes at least one character. -/
def replaceSoldWordsAux : Nat → List Char → List Char
  | 0, l => l
  | _, [] => []
  | fuel + 1, c :: rest =>
    if "sold/month".data.isPrefixOf (c :: rest) then
      replaceSoldWordsAux fuel ((c :: rest).drop 10)
    else if "sold/mo".data.isPrefixOf (c :: rest) then
      replaceSoldWordsAux fuel ((c :: rest).drop 7)
    else if "sold per month".data.isPrefixOf (c :: rest) then
      replaceSoldWordsAux fuel ((c :: rest).drop 14)
    else if "sold monthly".data.isPrefixOf (c :: rest) then
      replaceSoldWordsAux fuel ((c :: rest).drop 12)
    else if "sold".data.isPrefixOf (c :: rest) then
      replaceSoldWordsAux fuel ((c :: rest).drop 4)
    else c :: replaceSoldWordsAux fuel rest

/-- The cleanup pipeline of `getMonthlySoldInfo` before pattern matching:
lowercase, trim, remove `+` and `,`, remove the "sold" word variants, trim,
remove all remaining whitespace. -/
def cleanQuantity (s : String) : List Char :=
  let raw := jsTrim (s.data.map Char.toLower)
  let raw := raw.filter (fun c => !(c = '+') && !(c = ','))
  let raw := replaceSoldWordsAux raw.length raw
  let raw := jsTrim raw
  raw.filter (fun c => !isWs c)

/-- Match of `^(\d+(\.\d+)?)k$` on the cleaned remainder (which is already
lowercase), returning the integer digits and the fractional digits (empty
when no decimal point is present). -/
def parseKParts (l : List Char) : Option (List Char × List Char) :=
  let ip := l.takeWhile isDigitCh
  let rest := l.dropWhile isDigitCh
  if ip.isEmpty then none
  else if rest = ['k'] then some (ip, [])
  else
    match rest with
    | '.' :: r =>
      let fp := r.takeWhile isDigitCh
      if fp.isEmpty then none
      else if r.dropWhile isDigitCh = ['k'] then some (ip, fp)
      else none
    | _ => none

/-- Exact value of the matched decimal `<ip>.<fp>`. -/
def decOfParts (ip fp : List Char) : ℚ :=
  (natOfDigits ip : ℚ) + (natOfDigits fp : ℚ) / 10 ^ fp.length

/-- The display of the matched base:
`Number.isInteger(base) ? base.toFixed(0) : ` ``${base}`` — under exact
decimal semantics the base is an integer iff its fractional digits are all
zero, and the shortest JS rendering drops the trailing fractional zeros. -/
def renderBase (ip fp : List Char) : String :=
  if natOfDigits fp = 0 then ⟨natToDigits (natOfDigits ip)⟩
  else
    ⟨natToDigits (natOfDigits ip)⟩ ++ "." ++
      ⟨(fp.reverse.dropWhile (fun c => c = '0')).reverse⟩

/-- Smallest power of ten divisible by `d` (present exactly when `d` has only
the prime factors 2 and 5, as every denominator arising from decimal parsing
does). -/
def pow10Exp (d : Nat) : Option Nat :=
  (List.range (d + 1)).find? (fun e => 10 ^ e % d = 0)

/-- Shortest-decimal rendering of a JS number whose value is an exact
decimal (`numeric.toString()` of the source's plain-number branch). -/
def renderDecQ (q : ℚ) : String :=
  let sign := if q < 0 then "-" else ""
  let n := q.num.natAbs
  match pow10Exp q.den with
  | some e =>
    let scaled := n * 10 ^ e / q.den
    let ipart := scaled / 10 ^ e
    let fpart := scaled % 10 ^ e
    if fpart = 0 then sign ++ ⟨natToDigits ipart⟩
    else
      let fdigits := List.replicate (e - (natToDigits fpart).length) '0' ++
        natToDigits fpart
      sign ++ ⟨natToDigits ipart⟩ ++ "." ++
        ⟨(fdigits.reverse.dropWhile (fun c => c = '0')).reverse⟩
  | none => sign ++ ⟨natToDigits n⟩ ++ "/" ++ ⟨natToDigits q.den⟩

/-- `getMonthlySoldInfo`: empty input short-circuits to zeros with display
"0"; a k-match yields `base * 1000` with the +500 rule for bases in [1, 10];
otherwise the cleaned remainder is parsed as a plain decimal, an unparseable
one yielding zeros with the original raw string as display.  (The source's
`isNaN(base)` guard after a successful k-match is unreachable — the matched
digits always parse — and has no counterpart here.) -/
def getMonthlySoldInfo (monthlySold : String) : MonthlySoldInfo :=
  if monthlySold = "" then ⟨0, 0, "0"⟩
  else
    let raw := cleanQuantity monthlySold
    match parseKParts raw with
    | some (ip, fp) =>
      let base := decOfParts ip fp
      let numeric := base * 1000
      let adjusted := if 1 ≤ base ∧ base ≤ 10 then numeric + 500 else numeric
      ⟨numeric, adjusted, renderBase ip fp ++ "k"⟩
    | none =>
      match parseFloatChars raw with
      | none => ⟨0, 0, monthlySold⟩
      | some q => ⟨q, q, renderDecQ q⟩

theorem natOfDigits_acc (step : Nat → Char → Nat)
    (hstep : step = fun a c => a * 10 + (c.toNat - 48)) :
    ∀ (l : List Char) (a : Nat),
      l.foldl step a = a * 10 ^ l.length + l.foldl step 0 := by
  intro l
  induction l with
  | nil => intro a; simp
  | cons c t ih =>
    intro a
    have h1 : (c :: t).foldl step a = t.foldl step (step a c) := rfl
    have h2 : (c :: t).foldl step 0 = t.foldl step (step 0 c) := rfl
    rw [h1, h2, ih (step a c), ih (step 0 c), hstep]
    simp only [List.length_cons]
    ring

theorem natOfDigits_lt_pow :
    ∀ (l : List Char), (∀ c ∈ l, isDigitCh c = true) →
      natOfDigits l < 10 ^ l.length := by
  intro l
  induction l with
  | nil => intro _; simp [natOfDigits]
  | cons c t ih =>
    intro h
    have hd : c.toNat - 48 ≤ 9 := by
      have := h c (by simp)
      simp [isDigitCh] at this
      omega
    have hstep : natOfDigits (c :: t) =
        (c.toNat - 48) * 10 ^ t.length + natOfDigits t := by
      have h1 : natOfDigits (c :: t) =
          t.foldl (fun a c => a * 10 + (c.toNat - 48)) (0 * 10 + (c.toNat - 48)) := rfl
      rw [h1, natOfDigits_acc (fun a c => a * 10 + (c.toNat - 48)) rfl t]
      simp [natOfDigits]
    have ht : natOfDigits t < 10 ^ t.length := ih (fun x hx => h x (by simp [hx]))
    rw [hstep]
    have : (c.toNat - 48) * 10 ^ t.length + natOfDigits t <
        (c.toNat - 48 + 1) * 10 ^ t.length := by nlinarith
    calc (c.toNat - 48) * 10 ^ t.length + natOfDigits t
        < (c.toNat - 48 + 1) * 10 ^ t.length := this
      _ ≤ 10 * 10 ^ t.length := by nlinarith
      _ = 10 ^ (c :: t).length := by rw [List.length_cons]; ring

theorem parseKParts_fp_digits (l ip fp : List Char)
    (h : parseKParts l = some (ip, fp)) : ∀ c ∈ fp, isDigitCh c = true := by
  simp only [parseKParts] at h
  split at h
  · simp at h
  · split at h
    · simp only [Option.some.injEq, Prod.mk.injEq] at h
      obtain ⟨-, h2⟩ := h
      subst h2
      intro c hc
      simp at hc
    · split at h
      · split at h
        · simp at h
        · split at h
          · simp only [Option.some.injEq, Prod.mk.injEq] at h
            obtain ⟨-, h2⟩ := h
            subst h2
            intro c hc
            exact List.mem_takeWhile_imp hc
          · simp at h
      · simp at h

theorem natToDigits_shape :
    ∀ (fuel n : Nat) (acc : List Char),
      (∀ c ∈ acc, ∃ m, m < 10 ∧ c = Char.ofNat (48 + m)) →
      ∀ c ∈ natDigitsAux fuel n acc, ∃ m, m < 10 ∧ c = Char.ofNat (48 + m) := by
  intro fuel
  induction fuel with
  | zero => intro n acc hacc; simpa [natDigitsAux] using hacc
  | succ k ih =>
    intro n acc hacc c hc
    rw [natDigitsAux] at hc
    by_cases hn : n < 10
    · rw [if_pos hn] at hc
      rcases List.mem_cons.mp hc with h1 | h1
      · exact ⟨n, hn, h1⟩
      · exact hacc c h1
    · rw [if_neg hn] at hc
      refine ih (n / 10) _ ?_ c hc
      intro x hx
      rcases List.mem_cons.mp hx with h1 | h1
      · exact ⟨n % 10, Nat.mod_lt n (by omega), h1⟩
      · exact hacc x h1

theorem dot_not_mem_natToDigits (n : Nat) : '.' ∉ natToDigits n := by
  intro h
  obtain ⟨m, hm, hme⟩ := natToDigits_shape (n + 1) n [] (by simp) '.' h
  interval_cases m <;> simp_all

/-- Claim C2: a cleaned remainder matching `<number>k` yields
`numeric = base * 1000`, `adjusted = numeric + 500` exactly when the base lies
in [1, 10] and `adjusted = numeric` otherwise, and a display rendering the
original magnitude with a `k` suffix, decimal-point-free precisely for
integral magnitudes; in particular "1.3K sold" normalizes to
{1300, 1800, "1.3k"} and "15k" to equal numeric and adjusted 15000. -/
theorem normalize_quantity_k_rule (s : String) (ip fp : List Char)
    (hs : s ≠ "") (hk : parseKParts (cleanQuantity s) = some (ip, fp)) :
    (getMonthlySoldInfo s).numeric = decOfParts ip fp * 1000 ∧
    (getMonthlySoldInfo s).adjusted =
      (if 1 ≤ decOfParts ip fp ∧ decOfParts ip fp ≤ 10
        then decOfParts ip fp * 1000 + 500 else decOfParts ip fp * 1000) ∧
    (getMonthlySoldInfo s).display = renderBase ip fp ++ "k" ∧
    ((∃ z : ℤ, decOfParts ip fp = (z : ℚ)) ↔
      '.' ∉ (getMonthlySoldInfo s).display.data) ∧
    getMonthlySoldInfo "1.3K sold" = ⟨1300, 1800, "1.3k"⟩ ∧
    getMonthlySoldInfo "15k" = ⟨15000, 15000, "15k"⟩ := by
  have hunfold : getMonthlySoldInfo s =
      ⟨decOfParts ip fp * 1000,
        if 1 ≤ decOfParts ip fp ∧ decOfParts ip fp ≤ 10
          then decOfParts ip fp * 1000 + 500 else decOfParts ip fp * 1000,
        renderBase ip fp ++ "k"⟩ := by
    simp only [getMonthlySoldInfo, if_neg hs, hk]
  have hfpd := parseKParts_fp_digits (cleanQuantity s) ip fp hk
  have hvlt : natOfDigits fp < 10 ^ fp.length := natOfDigits_lt_pow fp hfpd
  rw [hunfold]
  have h13 : getMonthlySoldInfo "1.3K sold" = ⟨1300, 1800, "1.3k"⟩ := by
    have hk13 : parseKParts (cleanQuantity "1.3K sold") = some (['1'], ['3']) := by
      decide
    have h1 : natOfDigits ['1'] = 1 := by decide
    have h3 : natOfDigits ['3'] = 3 := by decide
    simp only [getMonthlySoldInfo, if_neg (by decide : ¬("1.3K sold" = "")), hk13,
      MonthlySoldInfo.mk.injEq]
    refine ⟨?_, ?_, by decide⟩
    · norm_num [decOfParts, h1, h3]
    · rw [if_pos (by norm_num [decOfParts, h1, h3])]
      norm_num [decOfParts, h1, h3]
  have h15 : getMonthlySoldInfo "15k" = ⟨15000, 15000, "15k"⟩ := by
    have hk15 : parseKParts (cleanQuantity "15k") = some (['1', '5'], []) := by
      decide
    have h1 : natOfDigits ['1', '5'] = 15 := by decide
    have h0 : natOfDigits ([] : List Char) = 0 := by decide
    simp only [getMonthlySoldInfo, if_neg (by decide : ¬("15k" = "")), hk15,
      MonthlySoldInfo.mk.injEq]
    refine ⟨?_, ?_, by decide⟩
    · norm_num [decOfParts, h1, h0]
    · rw [if_neg (by norm_num [decOfParts, h1, h0])]
      norm_num [decOfParts, h1, h0]
  refine ⟨rfl, rfl, rfl, ?_, h13, h15⟩
  by_cases hv : natOfDigits fp = 0
  · apply iff_of_true
    · refine ⟨(natOfDigits ip : ℤ), ?_⟩
      simp [decOfParts, hv]
    · show '.' ∉ (renderBase ip fp ++ "k").data
      rw [renderBase, if_pos hv]
      intro hmem
      rw [String.data_append] at hmem
      rcases List.mem_append.mp hmem with hm | hm
      · exact dot_not_mem_natToDigits _ hm
      · simp at hm
  · apply iff_of_false
    · rintro ⟨z, hz⟩
      have hpos : (0 : ℚ) < (natOfDigits fp : ℚ) / 10 ^ fp.length := by
        apply div_pos
        · exact_mod_cast Nat.pos_of_ne_zero hv
        · positivity
      have hlt1 : (natOfDigits fp : ℚ) / 10 ^ fp.length < 1 := by
        rw [div_lt_one (by positivity)]
        exact_mod_cast hvlt
      have hw : ((z - (natOfDigits ip : ℤ) : ℤ) : ℚ) =
          (natOfDigits fp : ℚ) / 10 ^ fp.length := by
        rw [decOfParts] at hz
        push_cast
        linarith
      have h1 : (0 : ℤ) < z - (natOfDigits ip : ℤ) := by
        have : (0 : ℚ) < ((z - (natOfDigits ip : ℤ) : ℤ) : ℚ) := by
          rw [hw]; exact hpos
        exact_mod_cast this
      have h2 : z - (natOfDigits ip : ℤ) < 1 := by
        have : ((z - (natOfDigits ip : ℤ) : ℤ) : ℚ) < 1 := by
          rw [hw]; exact hlt1
        exact_mod_cast this
      omega
    · intro hnot
      apply hnot
      show '.' ∈ (renderBase ip fp ++ "k").data
      rw [renderBase, if_neg hv]
      simp [String.data_append]

/-- Concrete witness for C2: "1.3K sold" has cleaned remainder "1.3k" with
integer digits "1" and fractional digits "3"; its numeric value is
base × 1000 and the display "1.3k" carries a decimal point because the base
1.3 is not an integer. -/
theorem normalize_quantity_k_rule_witness :
    (getMonthlySoldInfo "1.3K sold").numeric = decOfParts ['1'] ['3'] * 1000 ∧
    ((∃ z : ℤ, decOfParts ['1'] ['3'] = (z : ℚ)) ↔
      '.' ∉ (getMonthlySoldInfo "1.3K sold").display.data) := by
  have h := normalize_quantity_k_rule "1.3K sold" ['1'] ['3'] (by decide) (by decide)
  exact ⟨h.1, h.2.2.2.1⟩

/-- Claim C9: a non-empty input whose cleaned remainder matches neither the k
pattern nor a plain decimal normalizes to zeros while the display preserves
the original raw string unchanged, and the empty input normalizes to
{0, 0, "0"}. -/
theorem normalize_quantity_fallback (s : String)
    (hs : s ≠ "") (hk : parseKParts (cleanQuantity s) = none)
    (hp : parseFloatChars (cleanQuantity s) = none) :
    getMonthlySoldInfo s = ⟨0, 0, s⟩ ∧
    getMonthlySoldInfo "" = ⟨0, 0, "0"⟩ := by
  constructor
  · simp only [getMonthlySoldInfo, if_neg hs, hk, hp]
  · rfl

/-- Concrete witness for C9: "n/a" cleans to "n/a", which neither k-matches
nor parses as a decimal, so the result is zeros with display "n/a". -/
theorem normalize_quantity_fallback_witness :
    getMonthlySoldInfo "n/a" = ⟨0, 0, "n/a"⟩ := by
  exact (normalize_quantity_fallback "n/a" (by decide) (by decide) (by decide)).1

/-! ## Export row builders

`src/lib/exportFiles.ts` (the JSON-ingestion path, operating on `Product`)
and the route module (the scraping path, operating on scraped products) each
build flat rows for the spreadsheet/CSV writers.  Only the Excel
"Product Total Sales" sheet and the route's Excel and CSV builders push a
synthetic TOTAL row; the library's `generateCSV` does not.  Cells that hold
either a number or the empty string in the TOTAL row are modelled as
`Option ℚ` (`none` for `''`).  The serialization itself (`XLSX.utils`,
`Papa.unparse`) is an external collaborator and is not modelled; the row
lists below are its exact input. -/

/-- The `Product` record of `src/types/product.ts`.  `price_numeric` is a JS
number; `none` models a missing/NaN value (the `typeof`/`isNaN` guard of
`getPriceNumeric`).  The mutation of the computed `monthly_sold_numeric`,
`adjusted_monthly_sold` and `monthly_sold_sales` fields performed by the
exporters has no effect on any exported row and is not modelled. -/
structure Product where
  name : String
  price : String
  price_numeric : Option ℚ
  original_price : Option String
  discount : Option String
  historical_sold : String
  monthly_sold : String
  rating : String
  item_id : Int
  shop_name : String
  sold_out : String
  status : String

/-- `getPriceNumeric`: the numeric price when present, else `parseFloat` of
the price string with commas removed, defaulting to 0. -/
def getPriceNumeric (p : Product) : ℚ :=
  match p.price_numeric with
  | some q => q
  | none => (parseFloatChars (p.price.data.filter (fun c => !(c = ',')))).getD 0

/-- One row of the library's `generateCSV` output. -/
structure LibCsvRow where
  productName : String
  price : ℚ
  originalPrice : String
  discount : String
  totalSold : String
  monthlySoldRaw : String
  monthlySoldNumeric : ℚ
  adjustedMonthlySold : ℚ
  monthlySoldSales : ℚ
  rating : String
  itemId : Int
  shopName : String
  soldOut : String
  status : String

/-- The library's `generateCSV`: one row per product, no TOTAL row. -/
def libGenerateCSVRows (products : List Product) : List LibCsvRow :=
  products.map (fun p =>
    let info := getMonthlySoldInfo p.monthly_sold
    let price := getPriceNumeric p
    { productName := p.name
      price := price
      originalPrice := p.original_price.getD ""
      discount := p.discount.getD ""
      totalSold := p.historical_sold
      monthlySoldRaw := p.monthly_sold
      monthlySoldNumeric := info.numeric
      adjustedMonthlySold := info.adjusted
      monthlySoldSales := price * info.adjusted
      rating := p.rating
      itemId := p.item_id
      shopName := p.shop_name
      soldOut := p.sold_out
      status := p.status })

/-- One row of the library Excel export's "Product Total Sales" sheet. -/
structure TotalSalesRow where
  productName : String
  price : Option ℚ
  monthlySoldDisplay : String
  adjustedMonthlySold : Option ℚ
  monthlySoldSales : ℚ

/-- The "Product Total Sales" sheet of the library's `generateExcel`: one row
per product followed by the TOTAL row summing the sales column. -/
def libExcelTotalSalesRows (products : List Product) : List TotalSalesRow :=
  let rows := products.map (fun p =>
    let info := getMonthlySoldInfo p.monthly_sold
    let price := getPriceNumeric p
    ({ productName := p.name
       price := some price
       monthlySoldDisplay := info.display
       adjustedMonthlySold := some info.adjusted
       monthlySoldSales := price * info.adjusted } : TotalSalesRow))
  let grand := rows.foldl (fun sum row => sum + row.monthlySoldSales) 0
  rows ++ [{ productName := "TOTAL", price := none, monthlySoldDisplay := ""
             adjustedMonthlySold := none, monthlySoldSales := grand }]

/-- Global removal of the substring "sold" (the route helper's
`replace(/sold/gi, '')`, applied to an already lowercased string). -/
def removeAllSold : Nat → List Char → List Char
  | 0, l => l
  | _, [] => []
  | fuel + 1, c :: rest =>
    if "sold".data.isPrefixOf (c :: rest) then
      removeAllSold fuel ((c :: rest).drop 4)
    else c :: removeAllSold fuel rest

/-- `replace('k', '')` with a string pattern removes only the first
occurrence. -/
def removeFirstK : List Char → List Char
  | [] => []
  | c :: r => if c = 'k' then r else c :: removeFirstK r

/-- The route's `parseSoldCount` helper: zero for empty/"0", the k-suffix
branch multiplying by 1000, else a plain parse with commas removed. -/
def parseSoldCount (s : String) : ℚ :=
  if s = "" || s = "0" then 0
  else
    let cleaned := jsTrim (removeAllSold s.data.length (s.data.map Char.toLower))
    if cleaned.contains 'k' then
      let numStr := jsTrim (removeFirstK cleaned)
      match parseFloatChars numStr with
      | none => 0
      | some q => q * 1000
    else
      (parseFloatChars (cleaned.filter (fun c => !(c = ',')))).getD 0

/-- One row of the route's Excel/CSV builders (the columns the claims
inspect; the remaining presentation columns — original price, discount,
rating, reviews, IDs, URLs — are copied verbatim from the product and are
empty in the TOTAL row). -/
structure RouteRow where
  productName : String
  price : Option ℚ
  soldCount : String
  totalSales : ℚ

def routeRowOf (p : ScrapedProduct) : RouteRow :=
  { productName := p.name
    price := some p.price
    soldCount := if p.soldCount = "" then "0" else p.soldCount
    totalSales := p.price * parseSoldCount p.soldCount }

def routeTotalRow (grand : ℚ) : RouteRow :=
  { productName := "TOTAL", price := none, soldCount := "", totalSales := grand }

/-- The route's `generateCSV`: data rows then the TOTAL row. -/
def routeGenerateCSVRows (products : List ScrapedProduct) : List RouteRow :=
  let data := products.map routeRowOf
  let grand := data.foldl (fun sum row => sum + row.totalSales) 0
  data ++ [routeTotalRow grand]

/-- The route's `generateExcel` sheet rows: data rows then the TOTAL row. -/
def routeGenerateExcelRows (products : List ScrapedProduct) : List RouteRow :=
  let rows := products.map routeRowOf
  let grand := rows.foldl (fun sum row => sum + row.totalSales) 0
  rows ++ [routeTotalRow grand]

theorem foldl_total_lib (rows : List TotalSalesRow) :
    rows.foldl (fun sum row => sum + row.monthlySoldSales) 0 =
      (rows.map (fun r => r.monthlySoldSales)).sum := by
  have h : ∀ (l : List TotalSalesRow) (a : ℚ),
      l.foldl (fun sum row => sum + row.monthlySoldSales) a =
        a + (l.map (fun r => r.monthlySoldSales)).sum := by
    intro l
    induction l with
    | nil => intro a; simp
    | cons x t ih =>
      intro a
      simp only [List.foldl_cons, List.map_cons, List.sum_cons, ih]
      ring
  simpa using h rows 0

theorem foldl_total_route (rows : List RouteRow) :
    rows.foldl (fun sum row => sum + row.totalSales) 0 =
      (rows.map (fun r => r.totalSales)).sum := by
  have h : ∀ (l : List RouteRow) (a : ℚ),
      l.foldl (fun sum row => sum + row.totalSales) a =
        a + (l.map (fun r => r.totalSales)).sum := by
    intro l
    induction l with
    | nil => intro a; simp
    | cons x t ih =>
      intro a
      simp only [List.foldl_cons, List.map_cons, List.sum_cons, ih]
      ring
  simpa using h rows 0

/-- A sample product of the JSON-ingestion path. -/
def productA : Product :=
  { name := "A", price := "₱100.00", price_numeric := some 100,
    original_price := none, discount := none, historical_sold := "500",
    monthly_sold := "3k", rating := "4.9", item_id := 1, shop_name := "S",
    sold_out := "No", status := "normal" }

/-- A sample scraped product of the scraping path. -/
def scrapedB : ScrapedProduct :=
  { name := "B", price := 50, soldCount := "1.3K" }

/-- Counterexample to claim C8 as stated: the library's CSV export
(`generateCSV` in `src/lib/exportFiles.ts`) appends no TOTAL row — for the
non-empty product list `[productA]` its output is a single data row whose
product-name column is "A", not "TOTAL". -/
theorem csv_export_total_row_missing :
    (libGenerateCSVRows [productA]).map (fun r => r.productName) = ["A"] ∧
    ∀ r ∈ libGenerateCSVRows [productA], r.productName ≠ "TOTAL" := by
  constructor
  · rfl
  · intro r hr
    simp only [libGenerateCSVRows, List.map_cons, List.map_nil,
      List.mem_singleton] at hr
    subst hr
    decide

/-- Claim C8 (amended: the library's plain CSV export appends no TOTAL row;
the TOTAL row is appended by the library Excel export's "Product Total Sales"
sheet and by the route's Excel and CSV exports): for every non-empty record
list, each of those three builders emits the data rows followed by exactly
one synthetic row whose product-name column is "TOTAL" and whose
sales-estimate column is the sum of the preceding data rows' sales estimates,
while the library CSV's rows are exactly one per product. -/
theorem export_total_row (ps : List Product) (qs : List ScrapedProduct)
    (_hps : ps ≠ []) (_hqs : qs ≠ []) :
    (∃ body t, libExcelTotalSalesRows ps = body ++ [t] ∧
      body.length = ps.length ∧ t.productName = "TOTAL" ∧
      t.monthlySoldSales = (body.map (fun r => r.monthlySoldSales)).sum) ∧
    (∃ body t, routeGenerateCSVRows qs = body ++ [t] ∧
      body.length = qs.length ∧ t.productName = "TOTAL" ∧
      t.totalSales = (body.map (fun r => r.totalSales)).sum) ∧
    (∃ body t, routeGenerateExcelRows qs = body ++ [t] ∧
      body.length = qs.length ∧ t.productName = "TOTAL" ∧
      t.totalSales = (body.map (fun r => r.totalSales)).sum) ∧
    ((libGenerateCSVRows ps).length = ps.length ∧
      (libGenerateCSVRows ps).map (fun r => r.productName) =
        ps.map (fun p => p.name)) := by
  refine ⟨?_, ?_, ?_, ?_, ?_⟩
  · refine ⟨_, _, rfl, by simp, rfl, ?_⟩
    exact foldl_total_lib _
  · refine ⟨_, _, rfl, by simp, rfl, ?_⟩
    exact foldl_total_route _
  · refine ⟨_, _, rfl, by simp, rfl, ?_⟩
    exact foldl_total_route _
  · simp [libGenerateCSVRows]
  · simp [libGenerateCSVRows]

/-- Concrete witness for C8: the route CSV for the one-product list
`[scrapedB]` ends in a TOTAL row summing the single data row's sales. -/
theorem export_total_row_witness :
    ∃ body t, routeGenerateCSVRows [scrapedB] = body ++ [t] ∧
      body.length = 1 ∧ t.productName = "TOTAL" ∧
      t.totalSales = (body.map (fun r => r.totalSales)).sum := by
  have h := (export_total_row [productA] [scrapedB]
    (by simp) (by simp)).2.1
  simpa using h

/-! ## JSON ingestion path (`extractProductsFromJson`, `processMultipleJsons`)

The alternate ingestion path parses pasted Shopee payloads.  `JSON.parse` is
a platform builtin and is abstracted as a function from the raw string to an
`Except` outcome; the payload shapes follow `src/types/product.ts`, with
optional fields as `Option` (`none` also covering the JS falsy fallbacks of
empty strings, handled by `jsOrString`). -/

structure RatingInfo where
  rating_text : Option String

structure AssetInfo where
  name : Option String
  rating : Option RatingInfo

structure PriceDisplayInfo where
  price : Option ℚ
  strikethrough_price : Option ℚ
  discount : Option ℚ

structure SoldDisplayInfo where
  historical_sold_count_text : Option String
  monthly_sold_count_text : Option String

structure ShopData where
  shop_name : Option String

structure ShopeeItemCard where
  itemid : Int
  is_sold_out : Option Bool
  item_status : Option String
  item_card_display_price : Option PriceDisplayInfo
  item_card_display_sold_count : Option SoldDisplayInfo
  item_card_displayed_asset : Option AssetInfo
  shop_data : Option ShopData

structure CentralizeItemCard where
  item_cards : Option (List ShopeeItemCard)

structure ShopeeRespData where
  centralize_item_card : Option CentralizeItemCard

structure ShopeeResponse where
  data : Option ShopeeRespData
  centralize_item_card : Option CentralizeItemCard

/-- JS `x || dflt` on a string-valued field: missing and empty both fall back. -/
def jsOrString (o : Option String) (dflt : String) : String :=
  match o with
  | some s => if s = "" then dflt else s
  | none => dflt

/-- Comma grouping of a reversed digit list (three digits per group). -/
def groupRev : Nat → List Char → List Char
  | 0, l => l
  | fuel + 1, l =>
    if l.length ≤ 3 then l
    else l.take 3 ++ ',' :: groupRev fuel (l.drop 3)

/-- `price.toLocaleString('en-PH', {minimumFractionDigits: 2,
maximumFractionDigits: 2})` prefixed with the peso sign: the value rounded to
two fraction digits with comma-grouped thousands. -/
def formatPeso (q : ℚ) : String :=
  let cents : Int := Int.floor (q * 100 + 1 / 2)
  let sign := if cents < 0 then "-" else ""
  let n := cents.natAbs
  let ipDigits := natToDigits (n / 100)
  let fpart := n % 100
  let fstr := if fpart < 10 then '0' :: natToDigits fpart else natToDigits fpart
  "₱" ++ sign ++ ⟨(groupRev ipDigits.length ipDigits.reverse).reverse⟩ ++ "." ++ ⟨fstr⟩

/-- One item card converted to a `Product` (the loop body of
`extractProductsFromJson`). -/
def toProduct (item : ShopeeItemCard) : Product :=
  let price := ((item.item_card_display_price.bind (fun i => i.price)).getD 0) / 100000
  let strikethrough :=
    ((item.item_card_display_price.bind (fun i => i.strikethrough_price)).getD 0) / 100000
  let discount := (item.item_card_display_price.bind (fun i => i.discount)).getD 0
  { name := jsOrString (item.item_card_displayed_asset.bind (fun a => a.name))
      "Unknown Product"
    price := formatPeso price
    price_numeric := some price
    original_price := if strikethrough > 0 then some (formatPeso strikethrough) else none
    discount := if discount > 0 then some (renderDecQ discount ++ "%") else none
    historical_sold := jsOrString
      (item.item_card_display_sold_count.bind (fun i => i.historical_sold_count_text))
      "N/A"
    monthly_sold := jsOrString
      (item.item_card_display_sold_count.bind (fun i => i.monthly_sold_count_text))
      "N/A"
    rating := jsOrString
      ((item.item_card_displayed_asset.bind (fun a => a.rating)).bind
        (fun rt => rt.rating_text))
      "N/A"
    item_id := item.itemid
    shop_name := jsOrString (item.shop_data.bind (fun sd => sd.shop_name)) "N/A"
    sold_out := if item.is_sold_out.getD false then "Yes" else "No"
    status := jsOrString item.item_status "normal" }

/-- `extractProductsFromJson`: the item cards found under
`data.centralize_item_card.item_cards`, else under the top-level
`centralize_item_card.item_cards`, else none (a present-but-empty array is
truthy in JS and is kept as-is). -/
def extractProductsFromJson (resp : ShopeeResponse) : List Product :=
  let itemCards :=
    match (resp.data.bind (fun d => d.centralize_item_card)).bind
        (fun c => c.item_cards) with
    | some cards => cards
    | none =>
      match resp.centralize_item_card.bind (fun c => c.item_cards) with
      | some cards => cards
      | none => []
  itemCards.map toProduct

structure ProcessStats where
  totalFiles : Int
  totalProducts : Int
  soldOut : Int
  available : Int
  errors : List String

structure ProcessResult where
  products : List Product
  stats : ProcessStats

/-- `processMultipleJsons`: parse each payload, extending the product list on
success and the error list (tagged with the 1-based payload index) on
failure, then tabulate the summary statistics. -/
def processMultipleJsons (parseJson : String → Except String ShopeeResponse)
    (jsonStrings : List String) : ProcessResult :=
  let step := jsonStrings.enum.foldl
    (fun acc p =>
      match parseJson p.2 with
      | .ok resp => (acc.1 ++ extractProductsFromJson resp, acc.2)
      | .error msg =>
        (acc.1, acc.2 ++ ["JSON " ++ toString (p.1 + 1) ++ ": " ++ msg]))
    (([] : List Product), ([] : List String))
  let soldOutCount := (step.1.filter (fun p => p.sold_out == "Yes")).length
  { products := step.1
    stats :=
      { totalFiles := (jsonStrings.length : Int)
        totalProducts := (step.1.length : Int)
        soldOut := (soldOutCount : Int)
        available := (step.1.length : Int) - (soldOutCount : Int)
        errors := step.2 } }

/-- Claim C10: for every input payload list the returned statistics are
internally coherent — `totalFiles` is the number of inputs, `totalProducts`
the length of the returned product list, `soldOut` the number of returned
products with `sold_out = "Yes"`, `available = totalProducts - soldOut`, so
the two outcome counts sum to the total and neither is negative. -/
theorem process_multiple_jsons_stats
    (parseJson : String → Except String ShopeeResponse)
    (jsonStrings : List String) :
    (processMultipleJsons parseJson jsonStrings).stats.totalFiles =
      (jsonStrings.length : Int) ∧
    (processMultipleJsons parseJson jsonStrings).stats.totalProducts =
      ((processMultipleJsons parseJson jsonStrings).products.length : Int) ∧
    (processMultipleJsons parseJson jsonStrings).stats.soldOut =
      (((processMultipleJsons parseJson jsonStrings).products.filter
        (fun p => p.sold_out == "Yes")).length : Int) ∧
    (processMultipleJsons parseJson jsonStrings).stats.available =
      (processMultipleJsons parseJson jsonStrings).stats.totalProducts -
        (processMultipleJsons parseJson jsonStrings).stats.soldOut ∧
    (processMultipleJsons parseJson jsonStrings).stats.soldOut +
        (processMultipleJsons parseJson jsonStrings).stats.available =
      (processMultipleJsons parseJson jsonStrings).stats.totalProducts ∧
    0 ≤ (processMultipleJsons parseJson jsonStrings).stats.soldOut ∧
    0 ≤ (processMultipleJsons parseJson jsonStrings).stats.available := by
  have h2 : (processMultipleJsons parseJson jsonStrings).stats.totalProducts =
      ((processMultipleJsons parseJson jsonStrings).products.length : Int) := rfl
  have h3 : (processMultipleJsons parseJson jsonStrings).stats.soldOut =
      (((processMultipleJsons parseJson jsonStrings).products.filter
        (fun p => p.sold_out == "Yes")).length : Int) := rfl
  have h4 : (processMultipleJsons parseJson jsonStrings).stats.available =
      (processMultipleJsons parseJson jsonStrings).stats.totalProducts -
        (processMultipleJsons parseJson jsonStrings).stats.soldOut := rfl
  have hle : ((processMultipleJsons parseJson jsonStrings).products.filter
      (fun p => p.sold_out == "Yes")).length ≤
      (processMultipleJsons parseJson jsonStrings).products.length :=
    List.length_filter_le _ _
  exact ⟨rfl, h2, h3, h4, by omega, by omega, by omega⟩

end ShopeeExtractor
